import Mathlib

/-!
Verification development for a local LLM inference service
(Rust sources: `model_registry.rs`, `engine.rs`, `app_state.rs`, `api.rs`,
`main.rs`, `types.rs`).

The embedding is a faithful functional translation of the source:

* `ModelStatus`, `EngineKind`, `ModelMetadata`, `ModelRegistry` mirror
  `model_registry.rs`.  `SystemTime` values are modelled as a logical
  clock (`Nat`): `set_status` takes the current time as a parameter and
  the `AppState` threads a monotonically increasing clock through every
  call to `SystemTime::now()`.
* The `HashMap`s of the source are modelled as association lists; the
  seeded registry has distinct keys, and `HashMap::insert` is modelled
  by `insertName` (replace-or-prepend), which has the same lookup
  semantics.
* `DummyEngine` mirrors `engine.rs`.  Rust's `str::to_uppercase` and
  `str::split_whitespace` are modelled character-wise over the ASCII
  subset (`to_uppercase`, `split_whitespace` below), which is exact for
  every string appearing in the claims.  The `Arc` allocation identity
  of `DummyEngine::new` is made observable by an `id` field, fed from a
  construction counter in `AppState` (`next_engine_id`), so that
  "constructs a second engine instance" is a statable property.
* The request handlers `infer` and `infer_stream` from `api.rs` are
  modelled as pure functions that additionally return the list of
  admission-gate events (`Event.acquire`/`invoke`/`release`) performed
  on the path taken, making the permit protocol of the source explicit.
  The streaming handler takes an oracle `ok : Nat → Bool` telling
  whether the i-th channel send succeeds (the receiver may be gone),
  exactly as `sender.send(..).await.is_err()` can fire in the source.
* The admission gate itself (`tokio::sync::Semaphore`) is modelled as a
  counting-semaphore transition system (`GateSys`, `GateStep`) for the
  concurrency claims.
-/

namespace LlmService

/-- Association-list lookup, modelling `HashMap::get` on a map whose
keys are the `String` names of models. -/
def lookupName {α : Type} (n : String) : List (String × α) → Option α
  | [] => none
  | p :: ps => if p.1 = n then some p.2 else lookupName n ps

/-- Association-list insert-or-replace, modelling `HashMap::insert`. -/
def insertName {α : Type} (n : String) (v : α) (l : List (String × α)) :
    List (String × α) :=
  (n, v) :: l.filter (fun p => p.1 != n)

/-- Model status enum from `model_registry.rs`. -/
inductive ModelStatus where
  | Unloaded
  | Loading
  | Loaded
  | Error
deriving DecidableEq, Repr

/-- Rust `format!("{:?}", status)` (derived `Debug`) on `ModelStatus`. -/
def statusDebug : ModelStatus → String
  | ModelStatus.Unloaded => "Unloaded"
  | ModelStatus.Loading => "Loading"
  | ModelStatus.Loaded => "Loaded"
  | ModelStatus.Error => "Error"

/-- Engine kind enum from `model_registry.rs`. -/
inductive EngineKind where
  | Dummy
  | Candle
deriving DecidableEq, Repr

/-- Model metadata record from `model_registry.rs`; `last_updated`
models `Option<SystemTime>` as a logical clock value. -/
structure ModelMetadata where
  name : String
  status : ModelStatus
  path : String
  quantization : String
  engine_kind : EngineKind
  last_updated : Option Nat
deriving DecidableEq, Repr

/-- `ModelMetadata::new` from `model_registry.rs`. -/
def ModelMetadata.new (name path quantization : String)
    (engine_kind : EngineKind) : ModelMetadata :=
  { name := name
    status := ModelStatus.Unloaded
    path := path
    quantization := quantization
    engine_kind := engine_kind
    last_updated := none }

/-- The registry: `HashMap<String, ModelMetadata>` as an association
list. -/
structure ModelRegistry where
  models : List (String × ModelMetadata)
deriving DecidableEq, Repr

/-- The `"mistral-7b"` seed record of `ModelRegistry::new`. -/
def metaMistral : ModelMetadata :=
  ModelMetadata.new "mistral-7b" "./models/mistral-7b" "q4_k_m" EngineKind.Candle

/-- The `"llama-3b"` seed record of `ModelRegistry::new`. -/
def metaLlama : ModelMetadata :=
  ModelMetadata.new "llama-3b" "./models/llama-3b" "q4_k_m" EngineKind.Dummy

/-- `ModelRegistry::new`: the registry seeded at process start. -/
def ModelRegistry.new : ModelRegistry :=
  ⟨[("mistral-7b", metaMistral), ("llama-3b", metaLlama)]⟩

/-- `ModelRegistry::list_models`. -/
def ModelRegistry.list_models (r : ModelRegistry) : List ModelMetadata :=
  r.models.map Prod.snd

/-- `ModelRegistry::get_model`. -/
def ModelRegistry.get_model (r : ModelRegistry) (name : String) :
    Option ModelMetadata :=
  lookupName name r.models

/-- `ModelRegistry::set_status`: if the name is present, mutate that
record's `status` and `last_updated` (to `SystemTime::now()`, modelled
by the `now` parameter) and return the updated record; otherwise leave
the registry unchanged and return `None`. -/
def ModelRegistry.set_status (r : ModelRegistry) (name : String)
    (status : ModelStatus) (now : Nat) : ModelRegistry × Option ModelMetadata :=
  match lookupName name r.models with
  | none => (r, none)
  | some meta =>
    let meta' : ModelMetadata :=
      { meta with status := status, last_updated := some now }
    (⟨r.models.map (fun p => if p.1 = name then (p.1, meta') else p)⟩,
     some meta')

/-- Rust `str::to_uppercase`, modelled character-wise over the ASCII
subset (exact for every string in the claims). -/
def to_uppercase (s : String) : String :=
  String.mk (s.data.map Char.toUpper)

/-- Accumulator worker for `split_whitespace`; the accumulator holds the
current word, reversed. -/
def splitWsAux : List Char → List Char → List String
  | [], [] => []
  | [], acc => [String.mk acc.reverse]
  | c :: cs, acc =>
    if c.isWhitespace then
      match acc with
      | [] => splitWsAux cs []
      | _ :: _ => String.mk acc.reverse :: splitWsAux cs []
    else splitWsAux cs (c :: acc)

/-- Rust `str::split_whitespace`: the maximal non-empty runs of
non-whitespace characters, in order. -/
def split_whitespace (s : String) : List String :=
  splitWsAux s.data []

/-- `DummyEngine` from `engine.rs`.  The `id` field makes the `Arc`
allocation identity of `DummyEngine::new` observable: each construction
gets a fresh `id` from the `AppState` counter. -/
structure DummyEngine where
  model_name : String
  id : Nat
deriving DecidableEq, Repr

/-- The full text both `DummyEngine` methods build:
`format!("[{} DUMMY] {}", self.model_name, prompt.to_uppercase())`. -/
def dummy_full (model_name prompt : String) : String :=
  "[" ++ model_name ++ " DUMMY] " ++ to_uppercase prompt

/-- `DummyEngine::generate` (`engine.rs`): after a fixed delay (not
modelled), returns `Ok` of the tagged uppercased prompt. -/
def DummyEngine.generate (e : DummyEngine) (prompt : String) :
    Except String String :=
  Except.ok (dummy_full e.model_name prompt)

/-- The word list `DummyEngine::generate_stream` sends: the
whitespace-split words of the full text, with the marker fragment
`"[model=<name>]"` inserted at position 0. -/
def DummyEngine.stream_words (e : DummyEngine) (prompt : String) :
    List String :=
  ("[model=" ++ e.model_name ++ "]") ::
    split_whitespace (dummy_full e.model_name prompt)

/-- The send loop of `DummyEngine::generate_stream`: each word is sent
in order; if the i-th send fails (`ok i = false`, receiver gone) the
loop breaks silently. -/
def sendLoop (ok : Nat → Bool) : Nat → List String → List String
  | _, [] => []
  | i, w :: ws => if ok i then w :: sendLoop ok (i + 1) ws else []

/-- `DummyEngine::generate_stream` (`engine.rs`), as the list of
fragments actually delivered to the channel under send oracle `ok`. -/
def DummyEngine.generate_stream (e : DummyEngine) (prompt : String)
    (ok : Nat → Bool) : List String :=
  sendLoop ok 0 (e.stream_words prompt)

/-- Shared application state from `app_state.rs`.  `sem_available`
models the free-permit count of the `tokio::sync::Semaphore`; `clock`
is the logical `SystemTime::now()` source; `next_engine_id` counts
engine constructions (each `DummyEngine::new` allocation).  Only
`DummyEngine` values inhabit the engine table: the `Candle` arm of the
engine-kind match in `AppState::load_model` is commented out in the
source. -/
structure AppState where
  registry : ModelRegistry
  engines : List (String × DummyEngine)
  sem_available : Nat
  max_concurrent_infer : Nat
  clock : Nat
  next_engine_id : Nat
deriving DecidableEq, Repr

/-- `AppState::new`: empty engine table, seeded registry, semaphore
sized to `max_concurrent_infer`. -/
def AppState.new (max_concurrent_infer : Nat) : AppState :=
  { registry := ModelRegistry.new
    engines := []
    sem_available := max_concurrent_infer
    max_concurrent_infer := max_concurrent_infer
    clock := 0
    next_engine_id := 0 }

/-- The state managed by `rocket()` in `main.rs`:
`AppState::new(10)`. -/
def initialState : AppState := AppState.new 10

/-- The engine-construction match inside `AppState::load_model`
(`app_state.rs` lines 48–51).  The source match has only the
`EngineKind::Dummy` arm; the `Candle` arm is commented out, so the
match is non-exhaustive and a `Candle`-tagged model has no defined
behavior — modelled as `none`. -/
def construct_engine (kind : EngineKind) (model_name : String) (id : Nat) :
    Option DummyEngine :=
  match kind with
  | EngineKind.Dummy => some { model_name := model_name, id := id }
  | EngineKind.Candle => none

/-- `AppState::get_engine`. -/
def AppState.get_engine (st : AppState) (model_name : String) :
    Option DummyEngine :=
  lookupName model_name st.engines

/-- `AppState::load_model` (`app_state.rs`): look the name up (error if
absent), mark `Loading`, construct the engine for the model's
engine-kind, insert it into the engine table, mark `Loaded`, and return
the updated metadata.  The outer `Option` is `none` exactly when the
non-exhaustive engine-kind match is hit (a `Candle`-tagged model). -/
def AppState.load_model (st : AppState) (name : String) :
    Option (AppState × Except String ModelMetadata) :=
  match st.registry.get_model name with
  | none => some (st, Except.error ("model `" ++ name ++ "` not found"))
  | some meta =>
    let st1 : AppState :=
      { st with
        registry := (st.registry.set_status name ModelStatus.Loading st.clock).1
        clock := st.clock + 1 }
    match construct_engine meta.engine_kind name st1.next_engine_id with
    | none => none
    | some engine =>
      let st2 : AppState :=
        { st1 with
          engines := insertName name engine st1.engines
          next_engine_id := st1.next_engine_id + 1 }
      let reg2 := st2.registry.set_status name ModelStatus.Loaded st2.clock
      let st3 : AppState := { st2 with registry := reg2.1, clock := st2.clock + 1 }
      match reg2.2 with
      | none =>
        some (st3, Except.error ("failed to update status for `" ++ name ++ "`"))
      | some m => some (st3, Except.ok m)

/-- Response body of `POST /infer` (`types.rs`). -/
structure InferResponse where
  model_name : String
  output : String
deriving DecidableEq, Repr

/-- Admission-gate events a request handler performs on the path it
takes: acquiring the semaphore permit, invoking the engine, releasing
the permit. -/
inductive Event where
  | acquire
  | invoke
  | release
deriving DecidableEq, BEq, Repr

/-- Effect of one event on the semaphore's free-permit count. -/
def semDelta : Event → Int
  | Event.acquire => -1
  | Event.invoke => 0
  | Event.release => 1

/-- Free-permit count after performing a trace of events, starting
from `n` free permits. -/
def semAfterTrace (n : Int) (tr : List Event) : Int :=
  tr.foldl (fun m e => m + semDelta e) n

/-- The `infer` handler (`api.rs` lines 67–116): validate that the
model exists, is `Loaded`, and has an engine-table entry — each check
short-circuiting with an error rendered as text in a well-formed
response — then acquire a permit, call `engine.generate`, drop the
permit, and map an engine error to an `Error during inference` message.
The second component is the admission-gate event trace of the path
taken. -/
def infer (st : AppState) (model_name prompt : String) :
    InferResponse × List Event :=
  match st.registry.get_model model_name with
  | none =>
    ({ model_name := model_name
       output := "Error: model `" ++ model_name ++ "` not found" }, [])
  | some meta =>
    if meta.status = ModelStatus.Loaded then
      match st.get_engine model_name with
      | none =>
        ({ model_name := model_name
           output := "Error: no engine instance for model `" ++ model_name ++ "`" },
         [])
      | some engine =>
        ({ model_name := model_name
           output :=
             match engine.generate prompt with
             | Except.ok text => text
             | Except.error e => "Error during inference: " ++ e },
         [Event.acquire, Event.invoke, Event.release])
    else
      ({ model_name := model_name
         output := "Error: model `" ++ model_name ++ "` is not loaded (status = "
           ++ statusDebug meta.status ++ ")" }, [])

/-- The `infer_stream` handler (`api.rs` lines 119–195): on
`stream=false` or any validation failure, yield exactly one error
fragment and close.  Otherwise acquire a permit, spawn the producer
(which owns the permit until it ends and releases it then), and forward
every fragment the producer manages to send; `ok` tells whether the
i-th channel send succeeds.  Returns the delivered fragments and the
admission-gate event trace. -/
def infer_stream (st : AppState) (stream : Bool) (model_name prompt : String)
    (ok : Nat → Bool) : List String × List Event :=
  if stream then
    match st.registry.get_model model_name with
    | none =>
      (["Error: model `" ++ model_name ++ "` not found"], [])
    | some meta =>
      if meta.status = ModelStatus.Loaded then
        match st.get_engine model_name with
        | none =>
          (["Error: no engine instance for `" ++ model_name ++ "`"], [])
        | some engine =>
          (engine.generate_stream prompt ok,
           [Event.acquire, Event.invoke, Event.release])
      else
        (["Error: model `" ++ model_name ++ "` is not loaded (status = "
            ++ statusDebug meta.status ++ ")"], [])
  else
    (["stream=false not supported on this endpoint"], [])

/-- Counting-semaphore system modelling the Admission Gate: `avail`
free permits, and the numbers of sessions currently waiting at
`acquire`, running engine logic with a permit, and finished. -/
structure GateSys where
  avail : Nat
  waiting : Nat
  running : Nat
  finished : Nat
deriving DecidableEq, Repr

/-- Transitions of the Admission Gate: a waiting session acquires a
permit (only possible when one is free), or a running session releases
its permit. -/
inductive GateStep : GateSys → GateSys → Prop
  | acquire (a w r d : Nat) :
      GateStep ⟨a + 1, w + 1, r, d⟩ ⟨a, w, r + 1, d⟩
  | release (a w r d : Nat) :
      GateStep ⟨a, w, r + 1, d⟩ ⟨a + 1, w, r, d⟩

/-- States reachable from `k` fresh sessions against a semaphore with
`n` free permits. -/
inductive GateReach (n k : Nat) : GateSys → Prop
  | init : GateReach n k ⟨n, k, 0, 0⟩
  | step {s s' : GateSys} : GateReach n k s → GateStep s s' → GateReach n k s'

/-- The metadata `"llama-3b"` carries after the first successful
`load_model` on the fresh state: status `Loaded`, timestamp from the
second `set_status` call (logical time 1). -/
def llamaLoadedMeta : ModelMetadata :=
  { metaLlama with status := ModelStatus.Loaded, last_updated := some 1 }

/-- The application state after `AppState::new(10)` followed by
`load_model("llama-3b")`: registry updated, one engine (construction
id 0) in the table. -/
def llamaState : AppState :=
  { registry := ⟨[("mistral-7b", metaMistral), ("llama-3b", llamaLoadedMeta)]⟩
    engines := [("llama-3b", { model_name := "llama-3b", id := 0 })]
    sem_available := 10
    max_concurrent_infer := 10
    clock := 2
    next_engine_id := 1 }

/-- A state whose registry says `"llama-3b"` is `Loaded` but whose
engine table is empty (registry/engine-table desync), built with the
registry's own `set_status` operation. -/
def desyncState : AppState :=
  { AppState.new 10 with
    registry := ((ModelRegistry.new).set_status "llama-3b" ModelStatus.Loaded 0).1 }

/-- A send oracle under which every channel send succeeds (the receiver
stays connected for the whole stream). -/
def allOk : Nat → Bool := fun _ => true

/-- With a receiver that never disconnects, the send loop delivers
every word. -/
lemma sendLoop_all (i : Nat) (ws : List String) :
    sendLoop allOk i ws = ws := by
  induction ws generalizing i with
  | nil => rfl
  | cons w ws ih => simp [sendLoop, allOk, ih]

/-- Lookup after the map-based in-place update used by `set_status`:
the updated key reads the new value (if previously present), every
other key reads its old value. -/
lemma lookupName_map_set {α : Type} (l : List (String × α)) (name n : String)
    (v : α) :
    lookupName n (l.map (fun p => if p.1 = name then (p.1, v) else p)) =
      if n = name then (lookupName n l).map (fun _ => v)
      else lookupName n l := by
  induction l with
  | nil => by_cases h : n = name <;> simp [lookupName, h]
  | cons p ps ih =>
    by_cases hp : p.1 = name
    · by_cases hnm : n = name
      · simp [lookupName, hp, hnm, ih]
      · have hpn : ¬ p.1 = n := fun h => hnm (by rw [← h, hp])
        have hnn : ¬ name = n := fun h => hnm h.symm
        simp [lookupName, hp, hpn, hnm, hnn, ih]
    · by_cases hpn : p.1 = n
      · have hnm : ¬ n = name := fun h => hp (by rw [hpn, h])
        simp [lookupName, hp, hpn, hnm]
      · simp [lookupName, hp, hpn, ih]

/-- `set_status` never adds or removes a registry key. -/
lemma set_status_keys (r : ModelRegistry) (name : String)
    (status : ModelStatus) (now : Nat) (n : String) :
    (((r.set_status name status now).1).get_model n).isSome =
      (r.get_model n).isSome := by
  unfold ModelRegistry.set_status
  cases h : lookupName name r.models with
  | none => rfl
  | some meta =>
    simp only [ModelRegistry.get_model, lookupName_map_set]
    by_cases hn : n = name
    · subst hn; simp [h]
    · simp [hn]

/-- C1 (counterexample): after loading `"llama-3b"`,
`GenerateStream("llama-3b","a b")` does NOT yield the fragment list
claimed by the spec: the second fragment is `"[llama-3b"`, not
`"[LLAMA-3B"`, because `generate_stream` interpolates the model name
verbatim and uppercases only the prompt. -/
theorem stream_llama_ab_spec_counterexample :
    (AppState.new 10).load_model "llama-3b" =
      some (llamaState, Except.ok llamaLoadedMeta) ∧
    (infer_stream llamaState true "llama-3b" "a b" allOk).1 ≠
      ["[model=llama-3b]", "[LLAMA-3B", "DUMMY]", "A", "B"] :=
  ⟨rfl, by decide⟩

/-- C1 (amended): after a successful load of `"llama-3b"`,
`GenerateStream("llama-3b","a b")` yields exactly the fragments
`["[model=llama-3b]", "[llama-3b", "DUMMY]", "A", "B"]` in that order,
and then the stream closes (the list is the complete stream). -/
theorem stream_llama_ab_fragments :
    (AppState.new 10).load_model "llama-3b" =
      some (llamaState, Except.ok llamaLoadedMeta) ∧
    (infer_stream llamaState true "llama-3b" "a b" allOk).1 =
      ["[model=llama-3b]", "[llama-3b", "DUMMY]", "A", "B"] :=
  ⟨rfl, rfl⟩

/-- C2 (code evidence): calling `load_model` on the already-`Loaded`
`"llama-3b"` is NOT a no-op: the code re-runs the whole load path,
constructing a second engine instance (construction id 1 replaces id 0
in the table, and the construction counter reaches 2) and returning
metadata that differs from the current metadata (`last_updated` is
bumped). -/
theorem load_model_reload_constructs_new_engine :
    (AppState.new 10).load_model "llama-3b" =
      some (llamaState, Except.ok llamaLoadedMeta) ∧
    (llamaState.registry.get_model "llama-3b").map ModelMetadata.status =
      some ModelStatus.Loaded ∧
    llamaState.get_engine "llama-3b" =
      some { model_name := "llama-3b", id := 0 } ∧
    (llamaState.load_model "llama-3b").map
        (fun p => p.1.get_engine "llama-3b") =
      some (some { model_name := "llama-3b", id := 1 }) ∧
    (llamaState.load_model "llama-3b").map (fun p => p.1.next_engine_id) =
      some 2 ∧
    (llamaState.load_model "llama-3b").map (fun p => p.2.toOption) ≠
      some (some llamaLoadedMeta) :=
  ⟨rfl, rfl, rfl, rfl, rfl, by decide⟩

/-- C3 (counterexample): concatenating the streamed fragments (marker
removed) does not equal the synchronous output: the whitespace between
words is lost, so for prompt `"hello"` the concatenation is
`"[llama-3bDUMMY]HELLO"` while `generate` returns
`"[llama-3b DUMMY] HELLO"`. -/
theorem stream_concat_counterexample :
    DummyEngine.generate { model_name := "llama-3b", id := 0 } "hello" =
      Except.ok "[llama-3b DUMMY] HELLO" ∧
    String.join
        ((DummyEngine.generate_stream { model_name := "llama-3b", id := 0 }
            "hello" allOk).tail) ≠
      "[llama-3b DUMMY] HELLO" :=
  ⟨rfl, by decide⟩

/-- C3 (amended): for every prompt, the reference engine's streamed
fragments with the leading model-marker fragment removed are exactly
the whitespace-separated words of the synchronous `generate` output on
the same prompt (so joining them with single spaces, not plain
concatenation, reconstructs the output up to whitespace
normalization). -/
theorem stream_fragments_are_words_of_generate (e : DummyEngine)
    (prompt : String) :
    e.generate prompt = Except.ok (dummy_full e.model_name prompt) ∧
    (e.generate_stream prompt allOk).tail =
      split_whitespace (dummy_full e.model_name prompt) := by
  refine ⟨rfl, ?_⟩
  unfold DummyEngine.generate_stream DummyEngine.stream_words
  rw [sendLoop_all]
  rfl

/-- C4: the reference engine's synchronous `generate` returns
`"[" ++ model name ++ " DUMMY] "` followed by the uppercased prompt;
in particular, after loading `"llama-3b"`, `Generate("llama-3b","hello")`
returns output `"[llama-3b DUMMY] HELLO"`. -/
theorem generate_is_tagged_uppercase :
    (∀ (e : DummyEngine) (prompt : String),
      e.generate prompt =
        Except.ok ("[" ++ e.model_name ++ " DUMMY] " ++ to_uppercase prompt)) ∧
    (AppState.new 10).load_model "llama-3b" =
      some (llamaState, Except.ok llamaLoadedMeta) ∧
    (infer llamaState "llama-3b" "hello").1 =
      { model_name := "llama-3b", output := "[llama-3b DUMMY] HELLO" } :=
  ⟨fun _ _ => rfl, rfl, rfl⟩

/-- C6 (code evidence): `load_model` on an unknown name fails with the
NotFound message and leaves the state unchanged; on the Dummy-tagged
`"llama-3b"` it reaches `Loaded` with an engine in the table; but on
the seeded Candle-tagged `"mistral-7b"` the engine-kind match of the
source has no arm (the `Candle` arm is commented out), so the load has
no defined behavior (`none` in the model). -/
theorem load_model_dispatch_and_notfound :
    (AppState.new 10).load_model "ghost" =
      some (AppState.new 10, Except.error "model `ghost` not found") ∧
    (AppState.new 10).load_model "mistral-7b" = none ∧
    (AppState.new 10).load_model "llama-3b" =
      some (llamaState, Except.ok llamaLoadedMeta) ∧
    llamaLoadedMeta.status = ModelStatus.Loaded ∧
    llamaState.get_engine "llama-3b" =
      some { model_name := "llama-3b", id := 0 } :=
  ⟨rfl, rfl, rfl, rfl, rfl⟩

/-- C5: `Generate` validates in order and short-circuits: unknown name
gives the NotFound message, a non-`Loaded` status gives the NotLoaded
message carrying the actual status, and a missing engine-table entry
gives the EngineMissing message; in each failure case the event trace
is empty (no permit acquired, no engine invoked) and the response is
structurally well-formed (its `model_name` always echoes the request). -/
theorem infer_validation_short_circuit (st : AppState)
    (model_name prompt : String) :
    (infer st model_name prompt).1.model_name = model_name ∧
    (st.registry.get_model model_name = none →
      (infer st model_name prompt).1.output =
        "Error: model `" ++ model_name ++ "` not found" ∧
      (infer st model_name prompt).2 = []) ∧
    (∀ meta, st.registry.get_model model_name = some meta →
      meta.status ≠ ModelStatus.Loaded →
      (infer st model_name prompt).1.output =
        "Error: model `" ++ model_name ++ "` is not loaded (status = "
          ++ statusDebug meta.status ++ ")" ∧
      (infer st model_name prompt).2 = []) ∧
    (∀ meta, st.registry.get_model model_name = some meta →
      meta.status = ModelStatus.Loaded →
      st.get_engine model_name = none →
      (infer st model_name prompt).1.output =
        "Error: no engine instance for model `" ++ model_name ++ "`" ∧
      (infer st model_name prompt).2 = []) := by
  refine ⟨?_, ?_, ?_, ?_⟩
  · unfold infer
    cases h : st.registry.get_model model_name with
    | none => rfl
    | some meta =>
      by_cases hs : meta.status = ModelStatus.Loaded
      · simp only [if_pos hs]
        cases he : st.get_engine model_name <;> rfl
      · simp only [if_neg hs]
  · intro h
    simp [infer, h]
  · intro meta h hs
    simp [infer, h, hs]
  · intro meta h hs he
    simp [infer, h, hs, he]

/-- C5 witness: the three failure shapes at concrete inputs — unknown
name `"ghost"`, the seeded (still `Unloaded`) `"mistral-7b"`, and a
desynchronized state whose registry says `Loaded` while the engine
table is empty. -/
theorem infer_validation_short_circuit_witness :
    ((infer (AppState.new 10) "ghost" "hi").1.output =
        "Error: model `ghost` not found" ∧
      (infer (AppState.new 10) "ghost" "hi").2 = []) ∧
    ((infer (AppState.new 10) "mistral-7b" "hi").1.output =
        "Error: model `mistral-7b` is not loaded (status = Unloaded)" ∧
      (infer (AppState.new 10) "mistral-7b" "hi").2 = []) ∧
    ((infer desyncState "llama-3b" "hi").1.output =
        "Error: no engine instance for model `llama-3b`" ∧
      (infer desyncState "llama-3b" "hi").2 = []) := by
  refine ⟨?_, ?_, ?_⟩
  · exact (infer_validation_short_circuit (AppState.new 10) "ghost" "hi").2.1 rfl
  · exact (infer_validation_short_circuit (AppState.new 10) "mistral-7b" "hi").2.2.1
      metaMistral rfl (by decide)
  · exact (infer_validation_short_circuit desyncState "llama-3b" "hi").2.2.2
      { metaLlama with status := ModelStatus.Loaded, last_updated := some 0 }
      rfl rfl rfl

/-- The `infer` handler's event trace is empty (no permit touched) or
the single acquire/invoke/release triple. -/
lemma infer_trace_cases (st : AppState) (model_name prompt : String) :
    (infer st model_name prompt).2 = [] ∨
    (infer st model_name prompt).2 =
      [Event.acquire, Event.invoke, Event.release] := by
  unfold infer
  split
  · exact Or.inl rfl
  · split
    · split
      · exact Or.inl rfl
      · exact Or.inr rfl
    · exact Or.inl rfl

/-- The `infer_stream` handler's event trace is empty or the single
acquire/invoke/release triple. -/
lemma infer_stream_trace_cases (st : AppState) (stream : Bool)
    (model_name prompt : String) (ok : Nat → Bool) :
    (infer_stream st stream model_name prompt ok).2 = [] ∨
    (infer_stream st stream model_name prompt ok).2 =
      [Event.acquire, Event.invoke, Event.release] := by
  unfold infer_stream
  split
  · split
    · exact Or.inl rfl
    · split
      · split
        · exact Or.inl rfl
        · exact Or.inr rfl
      · exact Or.inl rfl
  · exact Or.inl rfl

/-- C7: on every exit path of a `Generate` or `GenerateStream` session
(validation failure, normal completion, or a receiver that disconnects
at any point, modelled by the send oracle `ok`), the admission permit
is acquired at most once and released exactly as many times as it is
acquired, and replaying the trace on the semaphore returns the free-slot
count to its pre-call value. -/
theorem permit_release_balanced (st : AppState) (model_name prompt : String)
    (stream : Bool) (ok : Nat → Bool) (n : Int) :
    ((infer st model_name prompt).2.count Event.acquire =
      (infer st model_name prompt).2.count Event.release) ∧
    (infer st model_name prompt).2.count Event.acquire ≤ 1 ∧
    semAfterTrace n (infer st model_name prompt).2 = n ∧
    ((infer_stream st stream model_name prompt ok).2.count Event.acquire =
      (infer_stream st stream model_name prompt ok).2.count Event.release) ∧
    (infer_stream st stream model_name prompt ok).2.count Event.acquire ≤ 1 ∧
    semAfterTrace n (infer_stream st stream model_name prompt ok).2 = n := by
  have htriple : ∀ m : Int,
      semAfterTrace m [Event.acquire, Event.invoke, Event.release] = m := by
    intro m
    simp only [semAfterTrace, semDelta, List.foldl]
    omega
  rcases infer_trace_cases st model_name prompt with h1 | h1 <;>
    rcases infer_stream_trace_cases st stream model_name prompt ok with h2 | h2 <;>
      rw [h1, h2] <;>
      exact ⟨by decide, by decide, by first | rfl | exact htriple n,
        by decide, by decide, by first | rfl | exact htriple n⟩

/-- C8: the set of registry keys is fixed at process start: the seeded
registry holds exactly `"mistral-7b"` and `"llama-3b"`, `set_status`
never adds or removes a key, and any completed `load_model` leaves the
registry's key set unchanged (list/get are read-only by construction). -/
theorem registry_keys_fixed :
    (∀ n : String, (ModelRegistry.new.get_model n).isSome = true ↔
      (n = "mistral-7b" ∨ n = "llama-3b")) ∧
    (∀ (r : ModelRegistry) (name : String) (status : ModelStatus) (now : Nat)
      (n : String),
      (((r.set_status name status now).1).get_model n).isSome =
        (r.get_model n).isSome) ∧
    (∀ (st : AppState) (name : String) (st' : AppState)
      (res : Except String ModelMetadata) (n : String),
      st.load_model name = some (st', res) →
      (st'.registry.get_model n).isSome = (st.registry.get_model n).isSome) := by
  refine ⟨?_, set_status_keys, ?_⟩
  · intro n
    by_cases h1 : "mistral-7b" = n
    · simp [ModelRegistry.get_model, ModelRegistry.new, lookupName, h1]
    · by_cases h2 : "llama-3b" = n
      · simp [ModelRegistry.get_model, ModelRegistry.new, lookupName, h1, h2]
      · have h1' : ¬ n = "mistral-7b" := fun h => h1 h.symm
        have h2' : ¬ n = "llama-3b" := fun h => h2 h.symm
        simp [ModelRegistry.get_model, ModelRegistry.new, lookupName,
          h1, h2, h1', h2']
  · intro st name st' res n h
    simp only [AppState.load_model] at h
    split at h
    · injection h with h'
      rw [Prod.mk.injEq] at h'
      obtain ⟨rfl, -⟩ := h'
      rfl
    · split at h
      · exact Option.noConfusion h
      · split at h
        · injection h with h'
          rw [Prod.mk.injEq] at h'
          obtain ⟨rfl, -⟩ := h'
          simp [set_status_keys]
        · injection h with h'
          rw [Prod.mk.injEq] at h'
          obtain ⟨rfl, -⟩ := h'
          simp [set_status_keys]

/-- C8 witness: a completed load of `"llama-3b"` leaves the key
`"mistral-7b"` exactly as present as before. -/
theorem registry_keys_fixed_witness :
    (llamaState.registry.get_model "mistral-7b").isSome =
      ((AppState.new 10).registry.get_model "mistral-7b").isSome :=
  registry_keys_fixed.2.2 (AppState.new 10) "llama-3b" llamaState
    (Except.ok llamaLoadedMeta) "mistral-7b" rfl

/-- Semaphore invariant of the Admission Gate: free permits plus
running sessions always equal the configured size. -/
lemma gate_invariant {n k : Nat} {s : GateSys} (h : GateReach n k s) :
    s.avail + s.running = n := by
  induction h with
  | init => simp
  | step _ hstep ih =>
    cases hstep with
    | acquire a w r d => simp at ih ⊢; omega
    | release a w r d => simp at ih ⊢; omega

/-- C9: for the semaphore of `AppState::new(10)` (the size `main.rs`
configures), at most 10 sessions run engine logic concurrently in any
reachable gate state; a step that admits a session to running requires
a free permit (so with none free, an extra caller can only stay
suspended at acquisition); and whenever a permit is free and a session
is waiting, an acquire step exists that lets it proceed — backpressure,
never rejection. -/
theorem admission_gate_bound (k : Nat) (s : GateSys)
    (h : GateReach ((AppState.new 10).sem_available) k s) :
    s.running ≤ (AppState.new 10).sem_available ∧
    (AppState.new 10).sem_available = 10 ∧
    (∀ s', GateStep s s' → s.running < s'.running → 0 < s.avail) ∧
    (0 < s.avail → 0 < s.waiting →
      ∃ s', GateStep s s' ∧ s'.running = s.running + 1) := by
  refine ⟨?_, rfl, ?_, ?_⟩
  · have hinv := gate_invariant h
    omega
  · intro s' hstep hlt
    cases hstep with
    | acquire a w r d => simp
    | release a w r d => simp at hlt
  · intro ha hw
    obtain ⟨a, w, r, d⟩ := s
    simp at ha hw
    obtain ⟨a0, rfl⟩ : ∃ a0, a = a0 + 1 := ⟨a - 1, by omega⟩
    obtain ⟨w0, rfl⟩ : ∃ w0, w = w0 + 1 := ⟨w - 1, by omega⟩
    exact ⟨⟨a0, w0, r + 1, d⟩, GateStep.acquire a0 w0 r d, rfl⟩

/-- C9 witness: the initial gate state with 10 free permits and 3
waiting sessions is within the bound, and one of the waiting sessions
can acquire and proceed. -/
theorem admission_gate_bound_witness :
    (GateSys.mk 10 3 0 0).running ≤ (AppState.new 10).sem_available ∧
    ∃ s', GateStep (GateSys.mk 10 3 0 0) s' ∧ s'.running = 0 + 1 := by
  have h := admission_gate_bound 3 (GateSys.mk 10 3 0 0) GateReach.init
  exact ⟨h.1, h.2.2.2 (by decide) (by decide)⟩

/-- C10: for every registered name, `set_status` changes only the
`status` and `last_updated` fields of the named record (the returned
and stored record is exactly the old record with those two fields
replaced, so `name`, `path`, `quantization` and `engine_kind` are
untouched), and every other record in the registry is unchanged. -/
theorem set_status_frame (r : ModelRegistry) (name : String)
    (status : ModelStatus) (now : Nat) (meta : ModelMetadata)
    (h : r.get_model name = some meta) :
    (r.set_status name status now).2 =
      some { meta with status := status, last_updated := some now } ∧
    (r.set_status name status now).1.get_model name =
      some { meta with status := status, last_updated := some now } ∧
    ∀ n, n ≠ name →
      (r.set_status name status now).1.get_model n = r.get_model n := by
  have hl : lookupName name r.models = some meta := h
  refine ⟨?_, ?_, ?_⟩
  · simp [ModelRegistry.set_status, hl]
  · simp [ModelRegistry.set_status, hl, ModelRegistry.get_model,
      lookupName_map_set]
  · intro n hn
    simp [ModelRegistry.set_status, hl, ModelRegistry.get_model,
      lookupName_map_set, hn]

/-- C10 witness: setting `"llama-3b"` to `Loaded` at time 5 in the
seeded registry returns the seed record with only `status` and
`last_updated` changed, and leaves `"mistral-7b"` untouched. -/
theorem set_status_frame_witness :
    (ModelRegistry.new.set_status "llama-3b" ModelStatus.Loaded 5).2 =
      some { metaLlama with status := ModelStatus.Loaded, last_updated := some 5 } ∧
    (ModelRegistry.new.set_status "llama-3b" ModelStatus.Loaded 5).1.get_model
        "mistral-7b" =
      ModelRegistry.new.get_model "mistral-7b" := by
  have h := set_status_frame ModelRegistry.new "llama-3b" ModelStatus.Loaded 5
    metaLlama rfl
  exact ⟨h.1, h.2.2 "mistral-7b" (by decide)⟩

end LlmService
